import Mathlib

/-!
# Verification of the `InfiniteScroller` marquee component

A shallow embedding of the `InfiniteScroller` React component
(`src/ui_library/src/components/scroller/InfiniteScroller.tsx`).
The file appears in two variants in the repository; both are embedded where
they differ (the animation distance computation), written `V1` for the first
variant and `V2` for the second.

Pixel quantities (DOM widths, speeds, animation clocks) are modelled as
rationals `ℚ`.  An `Item` is an opaque renderable unit together with the
width its wrapper `<div>` measures to once laid out.  The component
lifecycle (mount, effects with dependency arrays, the GSAP tween handle,
hover / resize listeners, the resize re-trigger timer) is modelled as an
explicit state machine `CState` driven by external events.
-/

namespace Scroller

/-- Scrolling direction, the `direction` prop: `"left"` or `"right"`. -/
inductive Direction where
  | left
  | right
deriving DecidableEq, Repr

/-- An opaque renderable item together with the rendered width (in px) of the
`<div>` wrapper that holds it (its DOM `offsetWidth`). -/
structure Item where
  tag : Nat
  width : ℚ
deriving DecidableEq, Repr

/-- The component's props (`InfiniteScrollerProps`), omitting the two opaque
CSS class pass-throughs which the component never inspects. -/
structure Config where
  items : List Item
  speed : ℚ
  gap : ℚ
  direction : Direction
  pauseOnHover : Bool
deriving DecidableEq, Repr

/-- The measurement loop of step 1: sum the children's `offsetWidth`s and add
`gap` after each child except the last (`totalWidth` in the source). -/
def totalWidthAux (gap : ℚ) : List ℚ → ℚ
  | [] => 0
  | [w] => w
  | w :: ws => w + gap + totalWidthAux gap ws

/-- `cloneCount = Math.ceil(containerWidth / totalWidth) + 2`. -/
def cloneCount (containerWidth totalWidth : ℚ) : ℤ :=
  ⌈containerWidth / totalWidth⌉ + 2

/-- The decision taken by the measuring layout effect: given the `items` prop,
the measured widths of the wrapper's current children, the `gap` prop and the
container's `offsetWidth`, produce the item list committed via
`setClonedItems`.  Mirrors lines 89–102 of the source: a non-positive
measured width or an empty child list degrades to the unrepeated `items`;
otherwise `cloneCount` concatenated copies of `items` are committed. -/
def cloneStep (items : List Item) (childWidths : List ℚ)
    (gap containerWidth : ℚ) : List Item :=
  let totalWidth := totalWidthAux gap childWidths
  if totalWidth ≤ 0 ∨ childWidths.length = 0 then
    items
  else
    (List.replicate (cloneCount containerWidth totalWidth).toNat items).flatten

/-- Animation distance of variant 1 (line 128):
`direction === "left" ? -totalWidth : totalWidth`. -/
def distanceV1 (direction : Direction) (scrollWidth : ℚ) : ℚ :=
  match direction with
  | .left => -scrollWidth
  | .right => scrollWidth

/-- Animation duration of variant 1 (line 132): `Math.abs(distance) / speed`. -/
def durationV1 (direction : Direction) (scrollWidth speed : ℚ) : ℚ :=
  |distanceV1 direction scrollWidth| / speed

/-- Animation distance of variant 2 (lines 302–305):
`direction === "left" ? -(totalWidth - containerWidth) : totalWidth - containerWidth`. -/
def distanceV2 (direction : Direction) (scrollWidth containerWidth : ℚ) : ℚ :=
  match direction with
  | .left => -(scrollWidth - containerWidth)
  | .right => scrollWidth - containerWidth

/-- Animation duration of variant 2 (line 306): `Math.abs(distance) / speed`. -/
def durationV2 (direction : Direction) (scrollWidth containerWidth speed : ℚ) : ℚ :=
  |distanceV2 direction scrollWidth containerWidth| / speed

/-- A GSAP tween as created by `gsap.to(wrapper, { x, duration, ease:
"linear", repeat: -1 })`: a target translation, a cycle duration, a paused
flag and the elapsed animation clock. -/
structure Tween where
  id : Nat
  target : ℚ
  duration : ℚ
  paused : Bool
  elapsed : ℚ
deriving DecidableEq, Repr

/-- The wrapper's translated x offset produced by a tween: linear easing from
`0` to `target` over `duration`, repeating from the origin (infinite
`repeat`), so the clock is wrapped into the current cycle. -/
def tweenX (t : Tween) : ℚ :=
  t.target * ((t.elapsed - t.duration * ⌊t.elapsed / t.duration⌋) / t.duration)

/-- `tween.pause()`. -/
def pauseTween (t : Tween) : Tween := { t with paused := true }

/-- `tween.resume()`. -/
def resumeTween (t : Tween) : Tween := { t with paused := false }

/-- Advance a tween's clock by `δ` seconds; a paused tween does not move. -/
def advanceTween (δ : ℚ) (t : Tween) : Tween :=
  if t.paused then t else { t with elapsed := t.elapsed + δ }

/-- The full state of one component instance together with the tweens alive
in the animation engine. -/
structure CState where
  cfg : Config
  containerWidth : ℚ
  mounted : Bool
  clonedItems : List Item
  tweenRef : Option Nat
  tweens : List Tween
  nextId : Nat
  hoverAttached : Bool
  resizeAttached : Bool
  pendingRetrigger : Bool
  prevLayoutDeps : Option (List Item × ℚ)
  prevAnimDeps : Option (List Item × ℚ × Direction)
  prevHoverDeps : Option Bool
  measureRuns : Nat
  cloneBranchRuns : Nat
deriving DecidableEq, Repr

/-- The pristine state of a freshly created instance: unmounted, cloned-item
state at its initial `[]`, no tween, no listeners, no effect has run. -/
def init (cfg : Config) (containerWidth : ℚ) : CState :=
  { cfg := cfg
    containerWidth := containerWidth
    mounted := false
    clonedItems := []
    tweenRef := none
    tweens := []
    nextId := 0
    hoverAttached := false
    resizeAttached := false
    pendingRetrigger := false
    prevLayoutDeps := none
    prevAnimDeps := none
    prevHoverDeps := none
    measureRuns := 0
    cloneBranchRuns := 0 }

/-- The widths the wrapper's children measure to: the wrapper renders exactly
the committed `clonedItems`, one `<div>` per item. -/
def wrapperChildWidths (s : CState) : List ℚ :=
  s.clonedItems.map Item.width

/-- `wrapper.scrollWidth`: the full laid-out width of the inline-flex wrapper,
children plus the gaps between them. -/
def wrapperScrollWidth (s : CState) : ℚ :=
  totalWidthAux s.cfg.gap (wrapperChildWidths s)

/-- `tweenRef.current.kill(); tweenRef.current = null` guarded by
`if (tweenRef.current)`: removes the referenced tween from the engine. -/
def killTween (s : CState) : CState :=
  match s.tweenRef with
  | none => s
  | some i =>
      { s with tweens := s.tweens.filter (fun t => t.id != i), tweenRef := none }

/-- The measuring layout effect body (lines 67–103): bail out if the refs are
not mounted, kill any existing tween, measure the wrapper's children and
commit `cloneStep`'s result.  `measureRuns` counts executions of the effect,
`cloneBranchRuns` counts executions that reach the clone-count branch. -/
def layoutEffectRun (s : CState) : CState :=
  if ¬ s.mounted then s
  else
    let s' := killTween s
    let ws := wrapperChildWidths s'
    let tw := totalWidthAux s'.cfg.gap ws
    { s' with
      clonedItems := cloneStep s'.cfg.items ws s'.cfg.gap s'.containerWidth
      measureRuns := s'.measureRuns + 1
      cloneBranchRuns :=
        if tw ≤ 0 ∨ ws.length = 0 then s'.cloneBranchRuns
        else s'.cloneBranchRuns + 1 }

/-- The animating effect body of variant 1 (lines 108–141): bail out if the
refs are not mounted or the committed list is empty, kill the old tween, then
start a fresh linear repeating tween toward `distanceV1` over `durationV1`. -/
def animEffectRun (s : CState) : CState :=
  if ¬ s.mounted then s
  else if s.clonedItems.length = 0 then s
  else
    let s' := killTween s
    let scrollW := wrapperScrollWidth s'
    let t : Tween :=
      { id := s'.nextId
        target := distanceV1 s'.cfg.direction scrollW
        duration := durationV1 s'.cfg.direction scrollW s'.cfg.speed
        paused := false
        elapsed := 0 }
    { s' with
      tweens := s'.tweens ++ [t]
      tweenRef := some s'.nextId
      nextId := s'.nextId + 1 }

/-- The hover effect body preceded by the cleanup of its previous run (lines
146–170): after the pass, the `mouseenter`/`mouseleave` listeners are attached
exactly when `pauseOnHover` holds and the container ref is mounted. -/
def hoverEffectRun (s : CState) : CState :=
  { s with hoverAttached := s.cfg.pauseOnHover && s.mounted }

/-- The measuring layout effect together with its `[items, gap]` dependency
check: it re-runs exactly when those props changed since its previous run. -/
def layoutStage (s : CState) : CState :=
  if s.prevLayoutDeps = some (s.cfg.items, s.cfg.gap) then s
  else { layoutEffectRun s with prevLayoutDeps := some (s.cfg.items, s.cfg.gap) }

/-- The animating effect together with its `[clonedItems, speed, direction]`
dependency check. -/
def animStage (s : CState) : CState :=
  if s.prevAnimDeps = some (s.clonedItems, s.cfg.speed, s.cfg.direction) then s
  else
    { animEffectRun s with
      prevAnimDeps := some (s.clonedItems, s.cfg.speed, s.cfg.direction) }

/-- The hover effect together with its `[pauseOnHover]` dependency check. -/
def hoverStage (s : CState) : CState :=
  if s.prevHoverDeps = some s.cfg.pauseOnHover then s
  else { hoverEffectRun s with prevHoverDeps := some s.cfg.pauseOnHover }

/-- The resize effect, whose dependency array is `[]`: it attaches the window
listener on the first pass and is never re-run. -/
def resizeStage (s : CState) : CState :=
  if s.resizeAttached then s else { s with resizeAttached := true }

/-- One commit pass: run each effect whose dependency array changed since its
previous run, in declaration order.  A `setClonedItems` performed by the
layout effect is visible to the animating effect of the same pass, modelling
the synchronous re-render that `useLayoutEffect` state updates force. -/
def runEffects (s : CState) : CState :=
  resizeStage (hoverStage (animStage (layoutStage s)))

/-- Apply `f` to the tween the component's `tweenRef` points at, if any. -/
def mapCurrentTween (f : Tween → Tween) (s : CState) : CState :=
  match s.tweenRef with
  | none => s
  | some i =>
      { s with tweens := s.tweens.map (fun t => if t.id == i then f t else t) }

/-- The tween the component's `tweenRef` currently points at, if alive. -/
def currentTween (s : CState) : Option Tween :=
  s.tweenRef.bind (fun i => s.tweens.find? (fun t => t.id == i))

/-- External events driving one component instance. -/
inductive Event where
  | mount
  | unmount
  | pointerEnter
  | pointerLeave
  | resize (newWidth : ℚ)
  | timerFire
  | tick (δ : ℚ)
  | setSpeed (v : ℚ)
  | setDirection (d : Direction)
  | setPauseOnHover (b : Bool)

/-- One lifecycle step.

* `mount` commits the first render and runs all effects.
* `unmount` runs the registered cleanups: the hover and resize listeners are
  removed; the animating effect registered no cleanup, so the tweens and the
  pending re-trigger timer are untouched.
* `pointerEnter` / `pointerLeave` fire the container listeners, which exist
  only while attached, and pause / resume the referenced tween.
* `resize` fires the window listener: the handler stores `[]` via
  `setClonedItems` (forcing a commit pass) and schedules the 50 ms timer.
* `timerFire` fires that timer; it dispatches a `resize-trigger` event on the
  container, for which no listener exists, so the state is unchanged apart
  from the timer being spent.
* `tick δ` advances the animation engine's clock by `δ` seconds.
* the `set*` events model prop updates, each forcing a commit pass. -/
def step (s : CState) : Event → CState
  | .mount => if s.mounted then s else runEffects { s with mounted := true }
  | .unmount =>
      if ¬ s.mounted then s
      else { s with mounted := false, hoverAttached := false, resizeAttached := false }
  | .pointerEnter => if s.hoverAttached then mapCurrentTween pauseTween s else s
  | .pointerLeave => if s.hoverAttached then mapCurrentTween resumeTween s else s
  | .resize newWidth =>
      let s' := { s with containerWidth := newWidth }
      if s'.resizeAttached then
        runEffects { s' with clonedItems := [], pendingRetrigger := true }
      else s'
  | .timerFire => { s with pendingRetrigger := false }
  | .tick δ => { s with tweens := s.tweens.map (advanceTween δ) }
  | .setSpeed v =>
      if s.mounted then runEffects { s with cfg := { s.cfg with speed := v } } else s
  | .setDirection d =>
      if s.mounted then runEffects { s with cfg := { s.cfg with direction := d } } else s
  | .setPauseOnHover b =>
      if s.mounted then runEffects { s with cfg := { s.cfg with pauseOnHover := b } } else s

/-- Run a sequence of external events from a state. -/
def run (events : List Event) (s : CState) : CState :=
  events.foldl step s

/-- A concrete configuration used to evaluate the machine: one item of
measured width 100 px, the default speed 50 px/s and gap 20 px, scrolling
left, with `pauseOnHover` enabled. -/
def cfgDemo : Config :=
  { items := [⟨0, 100⟩], speed := 50, gap := 20, direction := .left, pauseOnHover := true }

/-- A configuration whose single item measures to width 0. -/
def cfgZeroWidth : Config :=
  { items := [⟨0, 0⟩], speed := 50, gap := 20, direction := .left, pauseOnHover := false }

end Scroller

namespace Scroller

/-! ## Helper lemmas about the measured width of laid-out lists -/

/-- Splitting the measured width of a concatenation of two non-empty child
lists: one `gap` sits between the two halves. -/
theorem totalWidthAux_append (gap : ℚ) (xs ys : List ℚ) (hx : xs ≠ []) (hy : ys ≠ []) :
    totalWidthAux gap (xs ++ ys) = totalWidthAux gap xs + gap + totalWidthAux gap ys := by
  induction xs with
  | nil => exact absurd rfl hx
  | cons x xs ih =>
    cases xs with
    | nil =>
      cases ys with
      | nil => exact absurd rfl hy
      | cons y ys => simp [totalWidthAux]
    | cons x' xs' =>
      have h := ih (by simp)
      simp only [List.cons_append] at h ⊢
      simp only [totalWidthAux] at h ⊢
      rw [h]
      ring

/-- Flattening at least one copy of a non-empty list is non-empty. -/
theorem flatten_replicate_ne_nil {α : Type} (c : ℕ) (hc : 1 ≤ c) (ws : List α)
    (hw : ws ≠ []) : (List.replicate c ws).flatten ≠ [] := by
  cases c with
  | zero => omega
  | succ c =>
    simp only [List.replicate_succ, List.flatten_cons, ne_eq, List.append_eq_nil]
    intro h
    exact hw h.1

/-- Measured width of `c ≥ 1` concatenated copies of a non-empty child list:
`c` copies of the one-copy width plus the `c - 1` gaps between copies. -/
theorem totalWidthAux_flatten_replicate (gap : ℚ) (ws : List ℚ) (hws : ws ≠ [])
    (c : ℕ) (hc : 1 ≤ c) :
    totalWidthAux gap ((List.replicate c ws).flatten)
      = (c : ℚ) * totalWidthAux gap ws + ((c : ℚ) - 1) * gap := by
  induction c, hc using Nat.le_induction with
  | base => simp [List.replicate]
  | succ c hc ih =>
    rw [List.replicate_succ, List.flatten_cons,
      totalWidthAux_append gap ws _ hws (flatten_replicate_ne_nil c hc ws hws), ih]
    push_cast
    ring

/-! ## C1: the committed rendered list in the clone branch -/

/-- C1.  For every non-empty item list laid out once (the wrapper's children
are exactly the items, child widths measuring as the items do), with
one-copy measured width strictly positive and a non-negative container
width, the committed rendered list is exactly `cloneCount` concatenated
copies of `items`, and that count equals `⌈containerWidth / totalWidth⌉ + 2`. -/
theorem c1_clone_commit (items : List Item) (gap W : ℚ)
    (hne : items ≠ []) (hW : 0 ≤ W)
    (hT : 0 < totalWidthAux gap (items.map Item.width)) :
    cloneStep items (items.map Item.width) gap W
      = (List.replicate
          (cloneCount W (totalWidthAux gap (items.map Item.width))).toNat items).flatten
    ∧ ((cloneCount W (totalWidthAux gap (items.map Item.width))).toNat : ℤ)
      = ⌈W / totalWidthAux gap (items.map Item.width)⌉ + 2 := by
  have hlen : (items.map Item.width).length ≠ 0 := by
    simpa [List.length_eq_zero] using fun h => hne (by simpa using h)
  have hguard : ¬ (totalWidthAux gap (items.map Item.width) ≤ 0
      ∨ (items.map Item.width).length = 0) := by
    push_neg
    exact ⟨hT, hlen⟩
  constructor
  · simp only [cloneStep]
    rw [if_neg hguard]
  · have hceil : (0 : ℤ) ≤ ⌈W / totalWidthAux gap (items.map Item.width)⌉ :=
      Int.ceil_nonneg (div_nonneg hW hT.le)
    rw [cloneCount, Int.toNat_of_nonneg (by omega)]

/-- C1 witness: one item of width 1, gap 0, container width 3 gives
`⌈3/1⌉ + 2 = 5` committed copies. -/
theorem c1_clone_commit_witness :
    (cloneStep [⟨0, 1⟩] ([Item.mk 0 1].map Item.width) 0 3
      = (List.replicate
          (cloneCount 3 (totalWidthAux 0 ([Item.mk 0 1].map Item.width))).toNat
          [Item.mk 0 1]).flatten
    ∧ ((cloneCount 3 (totalWidthAux 0 ([Item.mk 0 1].map Item.width))).toNat : ℤ)
      = ⌈(3 : ℚ) / totalWidthAux 0 ([Item.mk 0 1].map Item.width)⌉ + 2) :=
  c1_clone_commit [⟨0, 1⟩] 0 3 (by simp) (by norm_num) (by norm_num [totalWidthAux])

/-! ## C2: coverage of the rendered list -/

/-- C2 counterexample: one item of measured width 1, gap 0, container width
3.  The clone branch commits 5 copies, whose rendered width is 5 px, which is
strictly below twice the container width (6 px): the "at least `2W`"
invariant fails as stated. -/
theorem c2_counterexample :
    totalWidthAux 0 ((cloneStep [⟨0, 1⟩] ([Item.mk 0 1].map Item.width) 0 3).map Item.width) = 5
    ∧ ¬ (2 * 3 ≤ (5 : ℚ)) := by
  norm_num [cloneStep, cloneCount, totalWidthAux, List.replicate]

/-- C2 amended.  For every non-empty item list laid out once with positive
one-copy measured width `T`, non-negative gap and container width `W`, the
rendered (cloned) list's total pixel width is at least `W + 2 * T`: the
container is covered once, with two extra full copies of the strip. -/
theorem c2_rendered_width_coverage (items : List Item) (gap W : ℚ)
    (hg : 0 ≤ gap) (hW : 0 ≤ W)
    (hT : 0 < totalWidthAux gap (items.map Item.width)) :
    W + 2 * totalWidthAux gap (items.map Item.width)
      ≤ totalWidthAux gap
          ((cloneStep items (items.map Item.width) gap W).map Item.width) := by
  set ws := items.map Item.width with hwsdef
  have hws : ws ≠ [] := by
    intro h
    rw [h] at hT
    simp [totalWidthAux] at hT
  have hguard : ¬ (totalWidthAux gap ws ≤ 0 ∨ ws.length = 0) := by
    push_neg
    exact ⟨hT, by simpa [List.length_eq_zero] using hws⟩
  have hceil : (0 : ℤ) ≤ ⌈W / totalWidthAux gap ws⌉ :=
    Int.ceil_nonneg (div_nonneg hW hT.le)
  set c : ℕ := (cloneCount W (totalWidthAux gap ws)).toNat with hcdef
  have hcz : (c : ℤ) = ⌈W / totalWidthAux gap ws⌉ + 2 := by
    rw [hcdef, cloneCount, Int.toNat_of_nonneg (by omega)]
  have hc1 : 1 ≤ c := by omega
  have hmap : ((List.replicate c items).flatten).map Item.width
      = (List.replicate c ws).flatten := by
    rw [hwsdef, List.map_flatten, List.map_replicate]
  have hstep : cloneStep items ws gap W = (List.replicate c items).flatten := by
    simp only [cloneStep]
    rw [if_neg hguard]
  rw [hstep, hmap, totalWidthAux_flatten_replicate gap ws hws c hc1]
  have hcq : (c : ℚ) = (⌈W / totalWidthAux gap ws⌉ : ℚ) + 2 := by
    exact_mod_cast hcz
  have h1 : W / totalWidthAux gap ws ≤ (⌈W / totalWidthAux gap ws⌉ : ℚ) :=
    Int.le_ceil _
  have h2 : W ≤ (⌈W / totalWidthAux gap ws⌉ : ℚ) * totalWidthAux gap ws :=
    (div_le_iff₀ hT).mp h1
  have h3 : 0 ≤ ((c : ℚ) - 1) * gap := by
    apply mul_nonneg _ hg
    rw [hcq]
    have : (0 : ℚ) ≤ (⌈W / totalWidthAux gap ws⌉ : ℚ) := by exact_mod_cast hceil
    linarith
  rw [hcq]
  nlinarith [hT.le]

/-- C2 amended witness: one item of width 1, gap 0, container width 3; the
rendered width (5 px) is at least `3 + 2 * 1` px. -/
theorem c2_rendered_width_coverage_witness :
    (3 : ℚ) + 2 * totalWidthAux 0 ([Item.mk 0 1].map Item.width)
      ≤ totalWidthAux 0
          ((cloneStep [⟨0, 1⟩] ([Item.mk 0 1].map Item.width) 0 3).map Item.width) :=
  c2_rendered_width_coverage [⟨0, 1⟩] 0 3 (by norm_num) (by norm_num)
    (by norm_num [totalWidthAux])

end Scroller

namespace Scroller

/-! ## C3: the duration contract of the animation -/

/-- C3 counterexample: at wrapper scroll width 1000 px, container width
500 px and speed 50 px/s, variant 2 of the animating effect computes a
duration of 10 s, while `scrollWidth / speed` is 20 s — the claimed exact
contract fails on the second variant of the source. -/
theorem c3_counterexample :
    durationV2 .left 1000 500 50 = 10
    ∧ (1000 : ℚ) / 50 = 20
    ∧ (10 : ℚ) ≠ 20 := by
  norm_num [durationV2, distanceV2]

/-- C3 amended.  For every non-negative wrapper scroll width and positive
speed, in both directions: variant 1's duration equals
`totalScrollWidth / speed` exactly, while variant 2's duration equals
`|totalScrollWidth - containerWidth| / speed`, which agrees with the claimed
contract only when the container width is zero. -/
theorem c3_duration_contract (dir : Direction) (scrollW containerW speed : ℚ)
    (hs : 0 ≤ scrollW) (_hsp : 0 < speed) :
    durationV1 dir scrollW speed = scrollW / speed
    ∧ durationV2 dir scrollW containerW speed = |scrollW - containerW| / speed := by
  cases dir <;>
    simp [durationV1, distanceV1, durationV2, distanceV2, abs_neg,
      abs_of_nonneg hs, abs_sub_comm]

/-- C3 amended witness: scroll width 1000 px, container width 500 px, speed
50 px/s. -/
theorem c3_duration_contract_witness :
    durationV1 .left 1000 50 = 1000 / 50
    ∧ durationV2 .left 1000 500 50 = |(1000 : ℚ) - 500| / 50 :=
  c3_duration_contract .left 1000 500 50 (by norm_num) (by norm_num)

/-! ## C5: direction symmetry of the animation -/

/-- C5.  For every wrapper scroll width, container width and speed, changing
`direction` from `left` to `right` reverses the sign of the target
translation while preserving its absolute value and the duration — in both
variants of the animating effect. -/
theorem c5_direction_symmetry (scrollW containerW speed : ℚ) :
    distanceV1 .right scrollW = -distanceV1 .left scrollW
    ∧ |distanceV1 .right scrollW| = |distanceV1 .left scrollW|
    ∧ durationV1 .right scrollW speed = durationV1 .left scrollW speed
    ∧ distanceV2 .right scrollW containerW = -distanceV2 .left scrollW containerW
    ∧ |distanceV2 .right scrollW containerW| = |distanceV2 .left scrollW containerW|
    ∧ durationV2 .right scrollW containerW speed
        = durationV2 .left scrollW containerW speed := by
  simp [distanceV1, durationV1, distanceV2, durationV2, abs_neg, abs_sub_comm]

end Scroller

namespace Scroller

/-! ## C4: degraded rendering and animation-task creation -/

/-- C4 counterexample: a single item measuring 0 px wide.  Its one-copy
measured width is `≤ 0`, so no cloning occurs and the committed rendered
list equals `items` unchanged — but that list is non-empty, so the animating
effect still creates a tween: an animation task *is* created, refuting the
claim's "no animation task is created" for this case. -/
theorem c4_counterexample :
    totalWidthAux cfgZeroWidth.gap (cfgZeroWidth.items.map Item.width) ≤ 0
    ∧ (run [.mount] (init cfgZeroWidth 500)).clonedItems = cfgZeroWidth.items
    ∧ (run [.mount] (init cfgZeroWidth 500)).tweens.length = 1 := by
  refine ⟨by norm_num [cfgZeroWidth, totalWidthAux], ?_, ?_⟩ <;>
    simp [run, step, runEffects, layoutStage, animStage, hoverStage, resizeStage, layoutEffectRun, animEffectRun, hoverEffectRun,
      killTween, cloneStep, cloneCount, totalWidthAux, wrapperChildWidths,
      wrapperScrollWidth, init, cfgZeroWidth]

/-- C4 amended.  For `items = []`, mounting commits the unchanged (empty)
rendered list and creates no animation task; and in general, whenever the
measured one-copy width is non-positive or the measured child list is empty,
the layout effect performs no cloning and commits `items` unchanged — though
an animation task is still created whenever that committed list is
non-empty. -/
theorem c4_empty_items_degrade (cfg : Config) (W : ℚ)
    (items₂ : List Item) (ws : List ℚ) (gap W₂ : ℚ)
    (h : cfg.items = [])
    (h₂ : totalWidthAux gap ws ≤ 0 ∨ ws = []) :
    ((run [.mount] (init cfg W)).clonedItems = []
      ∧ (run [.mount] (init cfg W)).tweens = []
      ∧ (run [.mount] (init cfg W)).tweenRef = none)
    ∧ cloneStep items₂ ws gap W₂ = items₂ := by
  constructor
  · refine ⟨?_, ?_, ?_⟩ <;>
      simp [run, step, runEffects, layoutStage, animStage, hoverStage, resizeStage, layoutEffectRun, animEffectRun, hoverEffectRun,
        killTween, cloneStep, totalWidthAux, wrapperChildWidths, init, h]
  · simp only [cloneStep]
    rw [if_pos]
    rcases h₂ with h₂ | h₂
    · exact Or.inl h₂
    · exact Or.inr (by simp [h₂])

/-- C4 amended witness: the empty configuration (no items, defaults
otherwise) mounted at container width 500, and the degradation of the pure
clone decision on an empty child-width list. -/
theorem c4_empty_items_degrade_witness :
    (((run [.mount] (init ⟨[], 50, 20, .left, false⟩ 500)).clonedItems = []
      ∧ (run [.mount] (init ⟨[], 50, 20, .left, false⟩ 500)).tweens = []
      ∧ (run [.mount] (init ⟨[], 50, 20, .left, false⟩ 500)).tweenRef = none)
    ∧ cloneStep [⟨0, 1⟩] [] 20 500 = [⟨0, 1⟩]) :=
  c4_empty_items_degrade ⟨[], 50, 20, .left, false⟩ 500 [⟨0, 1⟩] [] 20 500 rfl
    (Or.inr rfl)

/-! ## C7: teardown while an animation is active -/

/-- C7: the code leaks the animation task on unmount.  Mounting the demo
configuration commits a non-empty rendered list and starts a tween; on
unmount the hover and resize listeners are removed, but the animating effect
registered no cleanup, so the tween is still alive in the engine after the
component is gone. -/
theorem c7_unmount_leaves_tween :
    (run [.mount, .unmount] (init cfgDemo 500)).tweens.length = 1
    ∧ (run [.mount, .unmount] (init cfgDemo 500)).hoverAttached = false
    ∧ (run [.mount, .unmount] (init cfgDemo 500)).resizeAttached = false
    ∧ (run [.mount, .unmount] (init cfgDemo 500)).mounted = false := by
  refine ⟨?_, ?_, ?_, ?_⟩ <;>
    simp [run, step, runEffects, layoutStage, animStage, hoverStage, resizeStage, layoutEffectRun, animEffectRun, hoverEffectRun,
      killTween, cloneStep, cloneCount, totalWidthAux, wrapperChildWidths,
      wrapperScrollWidth, init, cfgDemo]

/-! ## C9: resize handling -/

/-- C9: a viewport resize clears the rendered list but triggers zero
re-measurement cycles.  After mounting, exactly one measurement pass has
run.  A resize event clears `clonedItems` and schedules the 50 ms timer;
after the timer fires (debounce settled), the measurement count is still
one — the measuring effect's dependencies `[items, gap]` did not change and
the dispatched `resize-trigger` event has no listener — and the rendered
list remains empty. -/
theorem c9_resize_no_remeasure :
    (run [.mount] (init cfgDemo 500)).measureRuns = 1
    ∧ (run [.mount, .resize 300, .timerFire] (init cfgDemo 500)).measureRuns = 1
    ∧ (run [.mount, .resize 300, .timerFire] (init cfgDemo 500)).clonedItems = []
    ∧ (run [.mount, .resize 300, .timerFire] (init cfgDemo 500)).pendingRetrigger = false := by
  refine ⟨?_, ?_, ?_, ?_⟩ <;>
    simp [run, step, runEffects, layoutStage, animStage, hoverStage, resizeStage, layoutEffectRun, animEffectRun, hoverEffectRun,
      killTween, cloneStep, cloneCount, totalWidthAux, wrapperChildWidths,
      wrapperScrollWidth, init, cfgDemo]

/-! ## C10: the initial mount pass -/

/-- C10.  On the initial mount the measurement pass runs while the
cloned-list state is still its initial `[]`, so the wrapper has zero
children, the degradation branch is taken, and the first committed rendered
list equals the original unrepeated `items`; the clone-count branch is not
reached on that pass (`cloneBranchRuns = 0` while `measureRuns = 1`). -/
theorem c10_initial_mount (cfg : Config) (W : ℚ) (h : cfg.items ≠ []) :
    (run [.mount] (init cfg W)).clonedItems = cfg.items
    ∧ (run [.mount] (init cfg W)).cloneBranchRuns = 0
    ∧ (run [.mount] (init cfg W)).measureRuns = 1 := by
  refine ⟨?_, ?_, ?_⟩ <;>
    simp [run, step, runEffects, layoutStage, animStage, hoverStage, resizeStage, layoutEffectRun, animEffectRun, hoverEffectRun,
      killTween, cloneStep, totalWidthAux, wrapperChildWidths, wrapperScrollWidth,
      init, List.length_eq_zero, h]

/-- C10 witness: the demo configuration mounted at container width 500. -/
theorem c10_initial_mount_witness :
    (run [.mount] (init cfgDemo 500)).clonedItems = cfgDemo.items
    ∧ (run [.mount] (init cfgDemo 500)).cloneBranchRuns = 0
    ∧ (run [.mount] (init cfgDemo 500)).measureRuns = 1 :=
  c10_initial_mount cfgDemo 500 (by simp [cfgDemo])

end Scroller

namespace Scroller

/-! ## C6: at most one animation handle alive -/

/-- The tween-ownership invariant: at most one tween is alive in the engine,
and any alive tween is the one the component's `tweenRef` owns. -/
def TweenInv (s : CState) : Prop :=
  s.tweens.length ≤ 1 ∧ ∀ t ∈ s.tweens, s.tweenRef = some t.id

/-- Under the ownership invariant, killing the referenced tween empties the
engine and clears the ref. -/
theorem killTween_clears (s : CState) (h : TweenInv s) :
    (killTween s).tweens = [] ∧ (killTween s).tweenRef = none := by
  obtain ⟨-, h2⟩ := h
  cases href : s.tweenRef with
  | none =>
    have hnil : s.tweens = [] := by
      apply List.eq_nil_iff_forall_not_mem.mpr
      intro t ht
      have := h2 t ht
      rw [href] at this
      exact Option.noConfusion this
    simp [killTween, href, hnil]
  | some i =>
    have hfil : s.tweens.filter (fun t => t.id != i) = [] := by
      apply List.filter_eq_nil_iff.mpr
      intro t ht
      have := h2 t ht
      rw [href] at this
      simp [Option.some.injEq] at this
      simp [this]
    simp [killTween, href, hfil]

/-- The layout effect preserves tween ownership: it starts by killing any
referenced tween and creates none. -/
theorem tweenInv_layoutEffectRun (s : CState) (h : TweenInv s) :
    TweenInv (layoutEffectRun s) := by
  unfold layoutEffectRun
  split
  · exact h
  · obtain ⟨h1, h2⟩ := killTween_clears s h
    refine ⟨?_, ?_⟩
    · simp [h1]
    · intro t ht
      simp [h1] at ht

/-- The animating effect preserves tween ownership: it kills the referenced
tween before creating the single new one it then owns. -/
theorem tweenInv_animEffectRun (s : CState) (h : TweenInv s) :
    TweenInv (animEffectRun s) := by
  unfold animEffectRun
  split
  · exact h
  · split
    · exact h
    · obtain ⟨h1, h2⟩ := killTween_clears s h
      refine ⟨?_, ?_⟩
      · simp [h1]
      · intro t ht
        simp [h1] at ht
        simp [ht]

/-- Each commit stage preserves tween ownership. -/
theorem tweenInv_layoutStage (s : CState) (h : TweenInv s) :
    TweenInv (layoutStage s) := by
  unfold layoutStage
  split
  · exact h
  · exact tweenInv_layoutEffectRun s h

/-- The animating stage preserves tween ownership. -/
theorem tweenInv_animStage (s : CState) (h : TweenInv s) :
    TweenInv (animStage s) := by
  unfold animStage
  split
  · exact h
  · exact tweenInv_animEffectRun s h

/-- The hover stage touches no tween. -/
theorem tweenInv_hoverStage (s : CState) (h : TweenInv s) :
    TweenInv (hoverStage s) := by
  unfold hoverStage hoverEffectRun
  split
  · exact h
  · exact h

/-- The resize stage touches no tween. -/
theorem tweenInv_resizeStage (s : CState) (h : TweenInv s) :
    TweenInv (resizeStage s) := by
  unfold resizeStage
  split
  · exact h
  · exact h

/-- A full commit pass preserves tween ownership. -/
theorem tweenInv_runEffects (s : CState) (h : TweenInv s) :
    TweenInv (runEffects s) :=
  tweenInv_resizeStage _ (tweenInv_hoverStage _ (tweenInv_animStage _
    (tweenInv_layoutStage _ h)))

/-- Applying an id-preserving engine operation to the referenced tween
preserves ownership. -/
theorem tweenInv_mapCurrentTween (f : Tween → Tween)
    (hf : ∀ t, (f t).id = t.id) (s : CState) (h : TweenInv s) :
    TweenInv (mapCurrentTween f s) := by
  obtain ⟨h1, h2⟩ := h
  cases href : s.tweenRef with
  | none =>
    unfold mapCurrentTween
    rw [href]
    exact ⟨h1, h2⟩
  | some i =>
    unfold mapCurrentTween
    rw [href]
    refine ⟨by simpa using h1, ?_⟩
    intro t ht
    simp only [List.mem_map] at ht
    obtain ⟨u, hu, hut⟩ := ht
    have hid : t.id = u.id := by
      by_cases hui : u.id == i
      · rw [← hut]
        simp [hui, hf]
      · rw [← hut]
        simp [hui]
    have hu2 := h2 u hu
    rw [href] at hu2
    show some i = some t.id
    rw [hid]
    exact hu2

/-- Advancing the engine clock preserves tween ownership. -/
theorem tweenInv_tick (δ : ℚ) (s : CState) (h : TweenInv s) :
    TweenInv { s with tweens := s.tweens.map (advanceTween δ) } := by
  obtain ⟨h1, h2⟩ := h
  refine ⟨by simpa using h1, ?_⟩
  intro t ht
  simp only [List.mem_map] at ht
  obtain ⟨u, hu, hut⟩ := ht
  have hid : t.id = u.id := by
    rw [← hut]
    unfold advanceTween
    split <;> rfl
  rw [hid]
  exact h2 u hu

/-- Every lifecycle step preserves tween ownership. -/
theorem tweenInv_step (s : CState) (e : Event) (h : TweenInv s) :
    TweenInv (step s e) := by
  cases e with
  | mount =>
    simp only [step]
    split
    · exact h
    · exact tweenInv_runEffects _ h
  | unmount =>
    simp only [step]
    split
    · exact h
    · exact h
  | pointerEnter =>
    simp only [step]
    split
    · exact tweenInv_mapCurrentTween pauseTween (fun t => rfl) s h
    · exact h
  | pointerLeave =>
    simp only [step]
    split
    · exact tweenInv_mapCurrentTween resumeTween (fun t => rfl) s h
    · exact h
  | resize newWidth =>
    simp only [step]
    split
    · exact tweenInv_runEffects _ h
    · exact h
  | timerFire => exact h
  | tick δ => exact tweenInv_tick δ s h
  | setSpeed v =>
    simp only [step]
    split
    · exact tweenInv_runEffects _ h
    · exact h
  | setDirection d =>
    simp only [step]
    split
    · exact tweenInv_runEffects _ h
    · exact h
  | setPauseOnHover b =>
    simp only [step]
    split
    · exact tweenInv_runEffects _ h
    · exact h

/-- Tween ownership holds along every event trace. -/
theorem tweenInv_run (tr : List Event) (s : CState) (h : TweenInv s) :
    TweenInv (run tr s) := by
  induction tr generalizing s with
  | nil => exact h
  | cons e tr ih => exact ih (step s e) (tweenInv_step s e h)

/-- C6.  Along every event trace of a component instance — mounts, prop
updates (speed, direction, `pauseOnHover`), resizes, hovers, timer fires,
clock ticks, unmount — at most one animation tween is alive in the engine:
every effect that starts a translation task first kills the previously
referenced one. -/
theorem c6_at_most_one_tween (cfg : Config) (W : ℚ) (tr : List Event) :
    (run tr (init cfg W)).tweens.length ≤ 1 :=
  (tweenInv_run tr (init cfg W)
    ⟨by simp [init], by intro t ht; simp [init] at ht⟩).1

end Scroller

namespace Scroller

/-! ## C8: pause-on-hover -/

/-- Killing a tween touches none of the listener-related fields. -/
theorem killTween_fields (s : CState) :
    (killTween s).mounted = s.mounted ∧ (killTween s).cfg = s.cfg
    ∧ (killTween s).hoverAttached = s.hoverAttached
    ∧ (killTween s).resizeAttached = s.resizeAttached
    ∧ (killTween s).prevHoverDeps = s.prevHoverDeps := by
  unfold killTween
  cases s.tweenRef <;> exact ⟨rfl, rfl, rfl, rfl, rfl⟩

/-- The layout effect touches none of the listener-related fields. -/
theorem layoutEffectRun_fields (s : CState) :
    (layoutEffectRun s).mounted = s.mounted ∧ (layoutEffectRun s).cfg = s.cfg
    ∧ (layoutEffectRun s).hoverAttached = s.hoverAttached
    ∧ (layoutEffectRun s).resizeAttached = s.resizeAttached
    ∧ (layoutEffectRun s).prevHoverDeps = s.prevHoverDeps := by
  unfold layoutEffectRun
  split
  · exact ⟨rfl, rfl, rfl, rfl, rfl⟩
  · exact killTween_fields s

/-- The animating effect touches none of the listener-related fields. -/
theorem animEffectRun_fields (s : CState) :
    (animEffectRun s).mounted = s.mounted ∧ (animEffectRun s).cfg = s.cfg
    ∧ (animEffectRun s).hoverAttached = s.hoverAttached
    ∧ (animEffectRun s).resizeAttached = s.resizeAttached
    ∧ (animEffectRun s).prevHoverDeps = s.prevHoverDeps := by
  unfold animEffectRun
  split
  · exact ⟨rfl, rfl, rfl, rfl, rfl⟩
  · split
    · exact ⟨rfl, rfl, rfl, rfl, rfl⟩
    · exact killTween_fields s

/-- The layout stage touches none of the listener-related fields. -/
theorem layoutStage_fields (s : CState) :
    (layoutStage s).mounted = s.mounted ∧ (layoutStage s).cfg = s.cfg
    ∧ (layoutStage s).hoverAttached = s.hoverAttached
    ∧ (layoutStage s).resizeAttached = s.resizeAttached
    ∧ (layoutStage s).prevHoverDeps = s.prevHoverDeps := by
  unfold layoutStage
  split
  · exact ⟨rfl, rfl, rfl, rfl, rfl⟩
  · exact layoutEffectRun_fields s

/-- The animating stage touches none of the listener-related fields. -/
theorem animStage_fields (s : CState) :
    (animStage s).mounted = s.mounted ∧ (animStage s).cfg = s.cfg
    ∧ (animStage s).hoverAttached = s.hoverAttached
    ∧ (animStage s).resizeAttached = s.resizeAttached
    ∧ (animStage s).prevHoverDeps = s.prevHoverDeps := by
  unfold animStage
  split
  · exact ⟨rfl, rfl, rfl, rfl, rfl⟩
  · exact animEffectRun_fields s

/-- Pausing or resuming the referenced tween touches only the tween list. -/
theorem mapCurrentTween_fields (f : Tween → Tween) (s : CState) :
    (mapCurrentTween f s).mounted = s.mounted ∧ (mapCurrentTween f s).cfg = s.cfg
    ∧ (mapCurrentTween f s).hoverAttached = s.hoverAttached
    ∧ (mapCurrentTween f s).resizeAttached = s.resizeAttached
    ∧ (mapCurrentTween f s).prevHoverDeps = s.prevHoverDeps := by
  unfold mapCurrentTween
  cases s.tweenRef <;> exact ⟨rfl, rfl, rfl, rfl, rfl⟩

/-- The hover listener invariant: whenever the hover listeners are attached,
the component is mounted with `pauseOnHover` set, and the hover effect's
recorded dependency is `true`; and the resize listener implies mountedness. -/
def HoverInv (s : CState) : Prop :=
  (s.hoverAttached = true →
    s.mounted = true ∧ s.cfg.pauseOnHover = true ∧ s.prevHoverDeps = some true)
  ∧ (s.resizeAttached = true → s.mounted = true)

/-- A commit pass on a mounted state yields the hover listener invariant,
provided attached hover listeners are justified by the recorded dependency. -/
theorem hoverInv_runEffects (s : CState) (hm : s.mounted = true)
    (h1 : s.hoverAttached = true → s.prevHoverDeps = some true) :
    HoverInv (runEffects s) := by
  obtain ⟨l1, l2, l3, l4, l5⟩ := layoutStage_fields s
  obtain ⟨a1, a2, a3, a4, a5⟩ := animStage_fields (layoutStage s)
  set s3 := animStage (layoutStage s) with hs3
  have hm3 : s3.mounted = true := by rw [a1, l1]; exact hm
  have hc3 : s3.cfg = s.cfg := by rw [a2, l2]
  have hh3 : s3.hoverAttached = s.hoverAttached := by rw [a3, l3]
  have hr3 : s3.resizeAttached = s.resizeAttached := by rw [a4, l4]
  have hp3 : s3.prevHoverDeps = s.prevHoverDeps := by rw [a5, l5]
  show HoverInv (resizeStage (hoverStage s3))
  unfold hoverStage
  split
  · next hdep =>
    -- dependency unchanged: listeners as before
    unfold resizeStage
    have key : s3.hoverAttached = true →
        s3.mounted = true ∧ s3.cfg.pauseOnHover = true
          ∧ s3.prevHoverDeps = some true := by
      intro ha
      have hprev : s3.prevHoverDeps = some true := by
        rw [hp3]
        exact h1 (by rw [← hh3]; exact ha)
      have hpoh : s3.cfg.pauseOnHover = true := by
        rw [hdep] at hprev
        exact (Option.some.injEq _ _ ▸ hprev)
      exact ⟨hm3, hpoh, hprev⟩
    split
    · exact ⟨key, fun _ => hm3⟩
    · exact ⟨key, fun _ => hm3⟩
  · -- the hover effect ran: listeners attached iff pauseOnHover ∧ mounted
    unfold resizeStage
    have key : (s3.cfg.pauseOnHover && s3.mounted) = true →
        s3.mounted = true ∧ s3.cfg.pauseOnHover = true
          ∧ (some s3.cfg.pauseOnHover : Option Bool) = some true := by
      intro ha
      rw [Bool.and_eq_true] at ha
      exact ⟨ha.2, ha.1, by rw [ha.1]⟩
    split
    · exact ⟨key, fun _ => hm3⟩
    · exact ⟨key, fun _ => hm3⟩

/-- Every lifecycle step preserves the hover listener invariant. -/
theorem hoverInv_step (s : CState) (e : Event) (h : HoverInv s) :
    HoverInv (step s e) := by
  cases e with
  | mount =>
    simp only [step]
    split
    · exact h
    · exact hoverInv_runEffects _ rfl (fun ha => (h.1 ha).2.2)
  | unmount =>
    simp only [step]
    split
    · exact h
    · exact ⟨fun ha => by simp at ha, fun hr => by simp at hr⟩
  | pointerEnter =>
    simp only [step]
    split
    · obtain ⟨f1, f2, f3, f4, f5⟩ := mapCurrentTween_fields pauseTween s
      exact ⟨fun ha => by
          rw [f1, f2, f5]
          exact h.1 (by rw [← f3]; exact ha),
        fun hr => by rw [f1]; exact h.2 (by rw [← f4]; exact hr)⟩
    · exact h
  | pointerLeave =>
    simp only [step]
    split
    · obtain ⟨f1, f2, f3, f4, f5⟩ := mapCurrentTween_fields resumeTween s
      exact ⟨fun ha => by
          rw [f1, f2, f5]
          exact h.1 (by rw [← f3]; exact ha),
        fun hr => by rw [f1]; exact h.2 (by rw [← f4]; exact hr)⟩
    · exact h
  | resize newWidth =>
    simp only [step]
    split
    · next hatt =>
      exact hoverInv_runEffects _ (h.2 hatt) (fun ha => (h.1 ha).2.2)
    · exact ⟨fun ha => h.1 ha, fun hr => h.2 hr⟩
  | timerFire => exact ⟨fun ha => h.1 ha, fun hr => h.2 hr⟩
  | tick δ => exact ⟨fun ha => h.1 ha, fun hr => h.2 hr⟩
  | setSpeed v =>
    simp only [step]
    split
    · next hm => exact hoverInv_runEffects _ hm (fun ha => (h.1 ha).2.2)
    · exact h
  | setDirection d =>
    simp only [step]
    split
    · next hm => exact hoverInv_runEffects _ hm (fun ha => (h.1 ha).2.2)
    · exact h
  | setPauseOnHover b =>
    simp only [step]
    split
    · next hm => exact hoverInv_runEffects _ hm (fun ha => (h.1 ha).2.2)
    · exact h

/-- The hover listener invariant holds along every event trace. -/
theorem hoverInv_run (tr : List Event) (s : CState) (h : HoverInv s) :
    HoverInv (run tr s) := by
  induction tr generalizing s with
  | nil => exact h
  | cons e tr ih => exact ih (step s e) (hoverInv_step s e h)

end Scroller



namespace Scroller

/-- `find?` by id commutes with mapping an id-preserving function. -/
theorem find_map_id_preserving (f : Tween → Tween)
    (hf : ∀ t, (f t).id = t.id) (i : Nat) (l : List Tween) :
    (l.map f).find? (fun t => t.id == i)
      = (l.find? (fun t => t.id == i)).map f := by
  induction l with
  | nil => rfl
  | cons t ts ih =>
    simp only [List.map_cons, List.find?]
    rw [hf t]
    by_cases h : (t.id == i) = true
    · simp [h]
    · simp [h, ih]

/-- Operating on the referenced tween acts as `Option.map` on `currentTween`. -/
theorem currentTween_mapCurrentTween (f : Tween → Tween)
    (hf : ∀ t, (f t).id = t.id) (s : CState) :
    currentTween (mapCurrentTween f s) = (currentTween s).map f := by
  cases href : s.tweenRef with
  | none => simp [currentTween, mapCurrentTween, href]
  | some i =>
    have hg : ∀ t, ((fun t => if t.id == i then f t else t) t).id = t.id := by
      intro t
      by_cases h : (t.id == i) = true <;> simp [h, hf]
    simp only [currentTween, mapCurrentTween, href, Option.some_bind]
    rw [find_map_id_preserving _ hg i]
    cases hfind : s.tweens.find? (fun t => t.id == i) with
    | none => rfl
    | some u =>
      have hu := List.find?_some hfind
      have hui : u.id = i := by simpa using hu
      simp [hui]

/-- Advancing the engine clock acts as `Option.map` on `currentTween`. -/
theorem currentTween_tick (δ : ℚ) (s : CState) :
    currentTween { s with tweens := s.tweens.map (advanceTween δ) }
      = (currentTween s).map (advanceTween δ) := by
  have hadv : ∀ t, (advanceTween δ t).id = t.id := by
    intro t
    unfold advanceTween
    split <;> rfl
  cases href : s.tweenRef with
  | none => simp [currentTween, href]
  | some i =>
    simp only [currentTween, href, Option.some_bind]
    exact find_map_id_preserving _ hadv i s.tweens

end Scroller


namespace Scroller

/-- With the hover listeners attached, pointer-enter pauses the referenced
tween. -/
theorem step_pointerEnter_of_attached (s : CState) (h : s.hoverAttached = true) :
    step s .pointerEnter = mapCurrentTween pauseTween s := by
  simp only [step]
  rw [if_pos h]

/-- With the hover listeners attached, pointer-leave resumes the referenced
tween. -/
theorem step_pointerLeave_of_attached (s : CState) (h : s.hoverAttached = true) :
    step s .pointerLeave = mapCurrentTween resumeTween s := by
  simp only [step]
  rw [if_pos h]

/-- A clock tick only advances the engine's tween clocks. -/
theorem step_tick_eq (δ : ℚ) (s : CState) :
    step s (.tick δ) = { s with tweens := s.tweens.map (advanceTween δ) } := rfl

/-- The referenced tween after a clock tick. -/
theorem currentTween_step_tick (δ : ℚ) (s : CState) :
    currentTween (step s (.tick δ)) = (currentTween s).map (advanceTween δ) := by
  rw [step_tick_eq]
  exact currentTween_tick δ s

/-- A clock tick leaves the hover listeners untouched. -/
theorem hoverAttached_step_tick (δ : ℚ) (s : CState) :
    (step s (.tick δ)).hoverAttached = s.hoverAttached := rfl

/-- C8.  Pause-on-hover contract.  Part one: along every event trace, the
hover listeners are attached only while the component is mounted with
`pauseOnHover` enabled (they are removed on teardown or when the option
becomes false).  Part two: from any state with the listeners attached,
pointer-enter pauses the referenced tween in place — its clock and its
translated offset are unchanged by any time advance `δ` — and pointer-leave
resumes it, unpaused, from exactly the paused clock and offset (no reset to
the origin), after which a further advance `δ'` moves the clock again. -/
theorem c8_pause_on_hover :
    (∀ (cfg : Config) (W : ℚ) (tr : List Event),
      (run tr (init cfg W)).hoverAttached = true →
        (run tr (init cfg W)).mounted = true
        ∧ (run tr (init cfg W)).cfg.pauseOnHover = true)
    ∧ (∀ (s : CState) (δ δ' : ℚ), s.hoverAttached = true →
        (currentTween (step (step s .pointerEnter) (.tick δ))).map Tween.elapsed
          = (currentTween s).map Tween.elapsed
        ∧ (currentTween (step (step s .pointerEnter) (.tick δ))).map tweenX
          = (currentTween s).map tweenX
        ∧ (currentTween
            (step (step (step s .pointerEnter) (.tick δ)) .pointerLeave)).map Tween.elapsed
          = (currentTween s).map Tween.elapsed
        ∧ (currentTween
            (step (step (step s .pointerEnter) (.tick δ)) .pointerLeave)).map tweenX
          = (currentTween s).map tweenX
        ∧ (currentTween
            (step (step (step s .pointerEnter) (.tick δ)) .pointerLeave)).map Tween.paused
          = (currentTween s).map (fun _ => false)
        ∧ (currentTween
            (step (step (step (step s .pointerEnter) (.tick δ)) .pointerLeave)
              (.tick δ'))).map Tween.elapsed
          = (currentTween s).map (fun t => t.elapsed + δ')) := by
  constructor
  · intro cfg W tr ha
    have h := hoverInv_run tr (init cfg W)
      ⟨fun h' => by simp [init] at h', fun h' => by simp [init] at h'⟩
    exact ⟨(h.1 ha).1, (h.1 ha).2.1⟩
  · intro s δ δ' h
    have e1 := step_pointerEnter_of_attached s h
    have hh2 : (step (step s .pointerEnter) (.tick δ)).hoverAttached = true := by
      rw [hoverAttached_step_tick, e1,
        (mapCurrentTween_fields pauseTween s).2.2.1]
      exact h
    have e3 := step_pointerLeave_of_attached _ hh2
    have hct2 : currentTween (step (step s .pointerEnter) (.tick δ))
        = (currentTween s).map (fun t => advanceTween δ (pauseTween t)) := by
      rw [currentTween_step_tick, e1,
        currentTween_mapCurrentTween pauseTween (fun t => rfl), Option.map_map]
      rfl
    have hct3 : currentTween
        (step (step (step s .pointerEnter) (.tick δ)) .pointerLeave)
        = (currentTween s).map
            (fun t => resumeTween (advanceTween δ (pauseTween t))) := by
      rw [e3, currentTween_mapCurrentTween resumeTween (fun t => rfl), hct2,
        Option.map_map]
      rfl
    have hct4 : currentTween
        (step (step (step (step s .pointerEnter) (.tick δ)) .pointerLeave) (.tick δ'))
        = (currentTween s).map
            (fun t => advanceTween δ' (resumeTween (advanceTween δ (pauseTween t)))) := by
      rw [currentTween_step_tick, hct3, Option.map_map]
      rfl
    refine ⟨?_, ?_, ?_, ?_, ?_, ?_⟩
    · rw [hct2]
      cases currentTween s <;> simp [pauseTween, advanceTween]
    · rw [hct2]
      cases currentTween s <;> simp [pauseTween, advanceTween, tweenX]
    · rw [hct3]
      cases currentTween s <;> simp [pauseTween, resumeTween, advanceTween]
    · rw [hct3]
      cases currentTween s <;> simp [pauseTween, resumeTween, advanceTween, tweenX]
    · rw [hct3]
      cases currentTween s <;> simp [pauseTween, resumeTween, advanceTween]
    · rw [hct4]
      cases currentTween s <;> simp [pauseTween, resumeTween, advanceTween]

end Scroller

namespace Scroller

/-- C8 witness: the demo configuration (with `pauseOnHover` enabled) mounted
at container width 500, followed by pointer-enter, a 1 s tick, pointer-leave
and a 2 s tick. -/
theorem c8_pause_on_hover_witness :
    ((run [.mount] (init cfgDemo 500)).mounted = true
      ∧ (run [.mount] (init cfgDemo 500)).cfg.pauseOnHover = true)
    ∧ ((currentTween
          (step (step (run [.mount] (init cfgDemo 500)) .pointerEnter)
            (.tick 1))).map Tween.elapsed
        = (currentTween (run [.mount] (init cfgDemo 500))).map Tween.elapsed
      ∧ (currentTween
          (step (step (run [.mount] (init cfgDemo 500)) .pointerEnter)
            (.tick 1))).map tweenX
        = (currentTween (run [.mount] (init cfgDemo 500))).map tweenX
      ∧ (currentTween
          (step (step (step (run [.mount] (init cfgDemo 500)) .pointerEnter)
            (.tick 1)) .pointerLeave)).map Tween.elapsed
        = (currentTween (run [.mount] (init cfgDemo 500))).map Tween.elapsed
      ∧ (currentTween
          (step (step (step (run [.mount] (init cfgDemo 500)) .pointerEnter)
            (.tick 1)) .pointerLeave)).map tweenX
        = (currentTween (run [.mount] (init cfgDemo 500))).map tweenX
      ∧ (currentTween
          (step (step (step (run [.mount] (init cfgDemo 500)) .pointerEnter)
            (.tick 1)) .pointerLeave)).map Tween.paused
        = (currentTween (run [.mount] (init cfgDemo 500))).map (fun _ => false)
      ∧ (currentTween
          (step (step (step (step (run [.mount] (init cfgDemo 500)) .pointerEnter)
            (.tick 1)) .pointerLeave) (.tick 2))).map Tween.elapsed
        = (currentTween (run [.mount] (init cfgDemo 500))).map
            (fun t => t.elapsed + 2)) :=
  ⟨c8_pause_on_hover.1 cfgDemo 500 [.mount]
    (by
      simp [run, step, runEffects, layoutStage, animStage, hoverStage,
        resizeStage, layoutEffectRun, animEffectRun, hoverEffectRun, killTween,
        cloneStep, cloneCount, totalWidthAux, wrapperChildWidths,
        wrapperScrollWidth, init, cfgDemo]),
   c8_pause_on_hover.2 (run [.mount] (init cfgDemo 500)) 1 2
    (by
      simp [run, step, runEffects, layoutStage, animStage, hoverStage,
        resizeStage, layoutEffectRun, animEffectRun, hoverEffectRun, killTween,
        cloneStep, cloneCount, totalWidthAux, wrapperChildWidths,
        wrapperScrollWidth, init, cfgDemo])⟩

end Scroller
